import Mathlib

/-!
Shallow embedding of the kobo firmware-patching tool (`src/main.go`).

The program orchestrates: catalog lookup, firmware download, patch-fragment
assembly, configuration merging, cross-compilation of helper binaries, and a
final patcher subprocess run.  File-system directories are modelled as
association lists from file name to file contents; the network and the
external toolchain are modelled as explicit oracles supplied to each run.
-/

set_option autoImplicit false

namespace Kobo

universe u

/-! ## Association-list helpers (model of a flat directory / Go map) -/

/-- Look up the first entry with the given key. -/
def lookupA {α : Type u} : List (String × α) → String → Option α
  | [], _ => none
  | p :: rest, k => if p.1 = k then some p.2 else lookupA rest k

/-- Whether the directory / map contains the given key. -/
def hasKey {α : Type u} (l : List (String × α)) (k : String) : Bool :=
  (lookupA l k).isSome

/-- Replace the value of the first entry with the given key (no-op when absent). -/
def updateA {α : Type u} : List (String × α) → String → α → List (String × α)
  | [], _, _ => []
  | p :: rest, k, v => if p.1 = k then (k, v) :: rest else p :: updateA rest k v

/-! ## Data model (src/main.go:22-33) -/

/-- Model of `FirmwareVersion` (src/main.go:22-26). -/
structure FirmwareVersion where
  Date : String
  Download : String
  Version : String
  deriving DecidableEq, Repr

/-- Model of `Firmware` (src/main.go:28-33). -/
structure Firmware where
  Hardware : String
  Id : String
  Model : String
  Versions : List FirmwareVersion
  deriving DecidableEq, Repr

/-! ## Lookup (src/main.go:323-339) -/

/-- Model of the inner loop of `main`: scan a device's version list for the
first entry whose `Version` equals the requested version string
(src/main.go:326-335). -/
def findVersion : List FirmwareVersion → String → Option FirmwareVersion
  | [], _ => none
  | v :: rest, ver => if v.Version = ver then some v else findVersion rest ver

/-- Model of the nested loop of `main` (src/main.go:324-337): linear scan of
the catalog for a device whose `Id` equals the uuid, then of its versions for
a matching version string; on a miss the outer scan continues with the
remaining devices. -/
def lookupFirmware : List Firmware → String → String → Option FirmwareVersion
  | [], _, _ => none
  | fw :: rest, u, ver =>
    if fw.Id = u then
      match findVersion fw.Versions ver with
      | some v => some v
      | none => lookupFirmware rest u ver
    else lookupFirmware rest u ver

/-- Specification-side rendering of "the first such match under linear scan":
concatenate the version lists of all devices with a matching identifier, in
catalog order, and take the first version whose string matches. -/
def firstMatchLookup (cat : List Firmware) (u ver : String) : Option FirmwareVersion :=
  (cat.flatMap (fun fw => if fw.Id = u then fw.Versions else [])).find?
    (fun v => v.Version == ver)

/-! ## Firmware downloader (src/main.go:74-101) -/

/-- Outcome of the single `http.Get` a run may perform.  `transportError`
models a failure of `http.Get` itself (connection refused, DNS, ...).
`response status body interrupted` models a delivered HTTP response;
`interrupted = some n` means the connection drops after `n` characters of the
body have been copied (an `io.Copy` error), `none` means the body is copied
completely.  Note that Go's `http.Get` does NOT return an error for non-2xx
statuses: those arrive as a normal response. -/
inductive HttpGetResult where
  | transportError (msg : String)
  | response (status : Nat) (body : String) (interrupted : Option Nat)
  deriving DecidableEq, Repr

/-- Name of the cached firmware file inside `build/src` (src/main.go:75). -/
def firmwareFileName (ver : String) : String :=
  "kobo-update-" ++ ver ++ ".zip"

/-- Full relative path of the cached firmware file (src/main.go:75). -/
def firmwareOutfile (ver : String) : String :=
  "build/src/" ++ firmwareFileName ver

/-- Model of `downloadFirmware` (src/main.go:74-101) acting on the `build/src`
directory.  Mirrors the source exactly: if the target file exists, skip with
success and no request (`os.Stat` / "Already exists"); otherwise perform the
GET.  A transport error is returned before any file is created.  On a
delivered response the target file is created (`os.Create`) and the body is
copied into it directly at the target path; an interrupted copy leaves the
prefix written so far at the target path and returns the copy error.  The
response status is never inspected, exactly as in the source.  The returned
`Bool` records whether a network request was made. -/
def downloadFirmware (ver url : String) (net : HttpGetResult)
    (dir : List (String × String)) :
    List (String × String) × Bool × Except String String :=
  if hasKey dir (firmwareFileName ver) then
    (dir, false, Except.ok (firmwareOutfile ver))
  else
    match net with
    | HttpGetResult.transportError msg => (dir, true, Except.error ("Get " ++ url ++ ": " ++ msg))
    | HttpGetResult.response _status body interrupted =>
      match interrupted with
      | some n =>
        (dir ++ [(firmwareFileName ver, body.take n)], true,
          Except.error "io.Copy: unexpected EOF")
      | none =>
        (dir ++ [(firmwareFileName ver, body)], true,
          Except.ok (firmwareOutfile ver))

/-! ## Patch assembler (src/main.go:103-123, 244-281) -/

/-- Helper for `extOf`: return the suffix of the character list starting at
the last `.`, if any. -/
def extAux : List Char → Option (List Char)
  | [] => none
  | c :: rest =>
    match extAux rest with
    | some e => some e
    | none => if c = '.' then some (c :: rest) else none

/-- Model of Go's `filepath.Ext` on a bare file name: the suffix beginning at
the final dot, or the empty string when the name contains no dot. -/
def extOf (name : String) : String :=
  match extAux name.toList with
  | some l => String.mk l
  | none => ""

/-- Model of the cleanup walk (src/main.go:245-258): delete every file in the
output source directory whose extension is `.yaml`. -/
def removeYamlFiles (dir : List (String × String)) : List (String × String) :=
  dir.filter (fun p => !(extOf p.1 = ".yaml"))

/-- Model of `appendFileToFile` (src/main.go:103-123): open the target with
`O_APPEND|O_WRONLY|O_CREATE`, copy the fragment's full contents, then write a
single newline. -/
def appendFileToFile (dir : List (String × String)) (contents target : String) :
    List (String × String) :=
  match lookupA dir target with
  | some old => updateA dir target (old ++ contents ++ "\n")
  | none => dir ++ [(target, contents ++ "\n")]

/-- Fold step of the concatenation walk: a fragment is a pair of its group
name (base of its parent directory, src/main.go:271) and its contents. -/
def appendStep (dir : List (String × String)) (gc : String × String) :
    List (String × String) :=
  appendFileToFile dir gc.2 gc.1

/-- Lexicographic comparison of character lists by character code. -/
def strLeAux : List Char → List Char → Bool
  | [], _ => true
  | _ :: _, [] => false
  | a :: as, b :: bs =>
    if a.toNat < b.toNat then true
    else if b.toNat < a.toNat then false
    else strLeAux as bs

/-- Lexicographic string ordering by character code, the order in which Go's
`filepath.Walk` visits directory entries. -/
def strLe (a b : String) : Bool := strLeAux a.toList b.toList

/-- Insert a named entry into a name-sorted list (ordering by `strLe` on names). -/
def insertByName {β : Type u} (x : String × β) : List (String × β) → List (String × β)
  | [] => [x]
  | y :: ys => if strLe x.1 y.1 then x :: y :: ys else y :: insertByName x ys

/-- Sort a list of named entries lexicographically by name.  Models the lexical
visiting order guaranteed by Go's `filepath.Walk`. -/
def sortByName {β : Type u} (l : List (String × β)) : List (String × β) :=
  l.foldr insertByName []

/-- Model of the `filepath.Walk` over the version's fragment tree
(src/main.go:263-277): a tree is a list of groups (subdirectory name paired
with its fragment files, each a file name paired with contents).  The walk
visits groups and, within each group, fragment files in lexical order, and
yields for each fragment the pair (group name, fragment contents). -/
def walkFragments (tree : List (String × List (String × String))) :
    List (String × String) :=
  (sortByName tree).flatMap (fun g => (sortByName g.2).map (fun f => (g.1, f.2)))

/-- Concatenation pass (src/main.go:263-277): append every fragment found by
the walk, plus one newline, to the merged file named after its group. -/
def concatFragments (tree : List (String × List (String × String)))
    (dir : List (String × String)) : List (String × String) :=
  (walkFragments tree).foldl appendStep dir

/-- Model of the assembler portion of `patchFirmware` (src/main.go:244-281):
first remove every `.yaml` file from the output source directory, then run the
concatenation walk over the fragment tree. -/
def assemble (tree : List (String × List (String × String)))
    (dir : List (String × String)) : List (String × String) :=
  concatFragments tree (removeYamlFiles dir)

/-! ## Configuration merger (src/main.go:35-46, 125-167) -/

/-- Model of the `KobopatchYaml` struct (src/main.go:35-46).  Maps are
modelled as association lists; `Files` values (`interface\x7b\x7d` in Go) are
modelled as opaque strings. -/
structure KobopatchYaml where
  Version : String
  In : String
  Out : String
  Log : String
  PatchFormat : String
  Patches : List (String × String)
  Overrides : List (String × List (String × Bool))
  Lrelease : String
  Translations : List (String × String)
  Files : List (String × String)
  deriving DecidableEq, Repr

/-- A parsed YAML document over the `KobopatchYaml` schema: each field is
present (`some`) or absent (`none`). -/
structure KobopatchYamlDoc where
  Version : Option String := none
  In : Option String := none
  Out : Option String := none
  Log : Option String := none
  PatchFormat : Option String := none
  Patches : Option (List (String × String)) := none
  Overrides : Option (List (String × List (String × Bool))) := none
  Lrelease : Option String := none
  Translations : Option (List (String × String)) := none
  Files : Option (List (String × String)) := none
  deriving DecidableEq, Repr

/-- Go zero value of the `KobopatchYaml` struct: empty strings and nil maps. -/
def zeroKobopatchYaml : KobopatchYaml :=
  { Version := "", In := "", Out := "", Log := "", PatchFormat := "",
    Patches := [], Overrides := [], Lrelease := "", Translations := [], Files := [] }

/-- Model of `gopkg.in/yaml.v3` decoding a mapping node into an existing Go
map: every key present in the document is set (its value decoded into a fresh
element, replacing a same-keyed existing entry), while existing entries whose
keys the document does not mention are retained. -/
def mergeMapDoc {β : Type u} (old new : List (String × β)) : List (String × β) :=
  old.filter (fun p => !(hasKey new p.1)) ++ new

/-- Model of `yaml.Unmarshal(doc, &k)` for an already-populated struct `k`
(src/main.go:135 and :146): struct fields present in the document are set -
scalar fields are overwritten, map-valued fields are merged key-by-key via
`mergeMapDoc` - and fields absent from the document are left untouched. -/
def applyDoc (k : KobopatchYaml) (d : KobopatchYamlDoc) : KobopatchYaml :=
  { Version := d.Version.getD k.Version
    In := d.In.getD k.In
    Out := d.Out.getD k.Out
    Log := d.Log.getD k.Log
    PatchFormat := d.PatchFormat.getD k.PatchFormat
    Patches := match d.Patches with
      | some m => mergeMapDoc k.Patches m
      | none => k.Patches
    Overrides := match d.Overrides with
      | some m => mergeMapDoc k.Overrides m
      | none => k.Overrides
    Lrelease := d.Lrelease.getD k.Lrelease
    Translations := match d.Translations with
      | some m => mergeMapDoc k.Translations m
      | none => k.Translations
    Files := match d.Files with
      | some m => mergeMapDoc k.Files m
      | none => k.Files }

/-- Model of `updateKobopatchYaml` (src/main.go:125-167), read/parse/write
errors aside (those are oracle outcomes in the pipeline model).  `template` is
the parse of `kobopatch-patches/src/template/kobopatch.yaml` after the textual
substitution of every `\x7b\x7bversion\x7d\x7d` token (src/main.go:132), and
`overrides` is the parse of `overrides.yaml`.  The template is unmarshalled
into the zero struct, the overrides document is unmarshalled on top of the
result, and finally `Version` and `In` are forcibly set from the run's version
parameter (src/main.go:152-153). -/
def updateKobopatchYaml (ver : String) (template overrides : KobopatchYamlDoc) :
    KobopatchYaml :=
  let k := applyDoc zeroKobopatchYaml template
  let k := applyDoc k overrides
  { k with Version := ver, In := "src/kobo-update-" ++ ver ++ ".zip" }

/-! ## Builder (src/main.go:169-229) -/

/-- The four platform keys handled by the `switch` in `buildKobopatch`
(src/main.go:201-219). -/
def supportedPlatforms : List String :=
  ["linux/amd64", "linux/386", "darwin/amd64", "windows/386"]

/-- Model of the `switch` on `GOOS/GOARCH` (src/main.go:198-219): the build
map (source package ↦ output binary name, in insertion order; Go's map
iteration order is unspecified and no claim depends on it) together with the
extra build arguments.  Platforms outside the four cases fall through with an
empty map, exactly as the `switch` with no `default` does.  The swapped
`kobopatch-apply`/`cssextract` output names on the two linux cases are as in
the source. -/
def buildMapFor (platform : String) : List (String × String) × List String :=
  if platform = "linux/amd64" then
    ([("kobopatch", "kobopatch-linux-64bit"),
      ("tools/cssextract", "kobopatch-apply-linux-64bit"),
      ("tools/kobopatch-apply", "cssextract-linux-64bit")], [])
  else if platform = "linux/386" then
    ([("kobopatch", "kobopatch-linux-32bit"),
      ("tools/cssextract", "kobopatch-apply-linux-32bit"),
      ("tools/kobopatch-apply", "cssextract-linux-32bit")], [])
  else if platform = "darwin/amd64" then
    ([("kobopatch", "kobopatch-darwin-64bit"),
      ("tools/cssextract", "cssextract-darwin-64bit"),
      ("tools/kobopatch-apply", "kobopatch-apply-darwin-64bit")], [])
  else if platform = "windows/386" then
    ([("kobopatch", "koboptch-windows.exe"),
      ("tools/cssextract", "cssextract-windows.exe"),
      ("tools/kobopatch-apply", "koboptch-apply-windows.exe")],
      ["-ldflags \"-extldflags -static\""])
  else ([], [])

/-- Go map indexing with the string zero value for a missing key: `buildMap[k]`
yields `""` when `k` is absent (src/main.go:290). -/
def lookupBuildMap (m : List (String × String)) (k : String) : String :=
  (lookupA m k).getD ""

/-- Observable side effects of a run: `go build` invocations, HTTP requests,
and patcher subprocess invocations. -/
inductive Event where
  | buildCmd (pkg out : String)
  | httpGet (url : String)
  | runCmd (path : String)
  deriving DecidableEq, Repr

/-- Model of the build loop (src/main.go:221-226): invoke `go build` for each
entry of the build map in order, stopping at the first failure.  The oracle
`goBuildErr` gives the outcome of the toolchain invocation for each package. -/
def runBuilds (m : List (String × String)) (goBuildErr : String → Option String) :
    List Event × Except String Unit :=
  match m with
  | [] => ([], Except.ok ())
  | (pkg, out) :: rest =>
    match goBuildErr pkg with
    | some e => ([Event.buildCmd pkg out], Except.error e)
    | none =>
      let r := runBuilds rest goBuildErr
      (Event.buildCmd pkg out :: r.1, r.2)

/-- Model of `buildKobopatch` (src/main.go:169-229): resolve the platform to
its build map and run each build; on success return the build map. -/
def buildKobopatch (platform : String) (goBuildErr : String → Option String) :
    List Event × Except String (List (String × String)) :=
  let m := (buildMapFor platform).1
  let r := runBuilds m goBuildErr
  match r.2 with
  | Except.error e => (r.1, Except.error e)
  | Except.ok _ => (r.1, Except.ok m)

/-! ## Whole-run pipeline (src/main.go:231-340) -/

/-- Environment oracle of one run: host platform, outcome of each toolchain
invocation, the network's response, I/O failures injected into the two
`filepath.Walk` passes and into the configuration read/parse/write step, the
fragment tree on disk, and the outcome of executing a binary at a given path. -/
structure Env where
  platform : String
  goBuildErr : String → Option String
  net : HttpGetResult
  walkCleanErr : Option String
  walkConcatErr : Option String
  tree : List (String × List (String × String))
  configErr : Option String
  execErr : String → Option String

/-- Whether a path's last character is the path separator, i.e. its final
component is empty. -/
def lastIsSlash (p : String) : Bool :=
  match p.toList.getLast? with
  | some c => c = '/'
  | none => false

/-- Model of `exec.Command(path)` / `cmd.Run()` (src/main.go:290-296): a
command path ending in `/` has an empty final component, names a directory,
and can never be executed - the OS rejects it unconditionally; any other path's
outcome comes from the environment oracle. -/
def runExec (f : String → Option String) (path : String) : Option String :=
  if lastIsSlash path then
    some ("fork/exec " ++ path ++ ": no such file or directory")
  else f path

/-- Model of `patchFirmware` (src/main.go:231-299): build, download, clean the
output source directory, concatenate fragments, merge the configuration, then
run the patcher binary taken from the build map's `kobopatch` entry.  Every
stage failure returns immediately with that error.  The result is the event
trace, the final `build/src` directory, and the run outcome.  Stage failures
injected by the walk/config oracles are modelled as aborting before that
stage's file-system effects. -/
def patchFirmware (env : Env) (ver : String) (v : FirmwareVersion)
    (dir : List (String × String)) :
    List Event × List (String × String) × Except String Unit :=
  match buildKobopatch env.platform env.goBuildErr with
  | (bev, Except.error e) => (bev, dir, Except.error e)
  | (bev, Except.ok bm) =>
    let dl := downloadFirmware ver v.Download env.net dir
    let dir1 := dl.1
    let dlev := if dl.2.1 then [Event.httpGet v.Download] else []
    match dl.2.2 with
    | Except.error e => (bev ++ dlev, dir1, Except.error e)
    | Except.ok _ =>
      match env.walkCleanErr with
      | some e => (bev ++ dlev, dir1, Except.error e)
      | none =>
        let dir2 := removeYamlFiles dir1
        match env.walkConcatErr with
        | some e => (bev ++ dlev, dir2, Except.error e)
        | none =>
          let dir3 := concatFragments env.tree dir2
          match env.configErr with
          | some e => (bev ++ dlev, dir3, Except.error e)
          | none =>
            let path := "./bin/" ++ lookupBuildMap bm "kobopatch"
            match runExec env.execErr path with
            | some e => (bev ++ dlev ++ [Event.runCmd path], dir3, Except.error e)
            | none => (bev ++ dlev ++ [Event.runCmd path], dir3, Except.ok ())

/-- Model of the tail of `main` (src/main.go:323-339): look the requested
(uuid, version) pair up in the catalog; on a hit, patch that firmware; on a
miss, fail fatally with "firmware not found!" without performing any action. -/
def mainRun (env : Env) (catalog : List Firmware) (u ver : String)
    (dir : List (String × String)) :
    List Event × List (String × String) × Except String Unit :=
  match lookupFirmware catalog u ver with
  | some v => patchFirmware env ver v dir
  | none => ([], dir, Except.error "firmware not found!")

/-! ## General lemmas about the directory model -/

theorem lookupA_append {α : Type u} (xs ys : List (String × α)) (k : String) :
    lookupA (xs ++ ys) k = (lookupA xs k).or (lookupA ys k) := by
  induction xs with
  | nil => rfl
  | cons p rest ih =>
    by_cases h : p.1 = k
    · simp [lookupA, h, Option.or]
    · simp [lookupA, h, ih]

theorem lookupA_append_right {α : Type u} {xs : List (String × α)} {k : String}
    (ys : List (String × α)) (h : lookupA xs k = none) :
    lookupA (xs ++ ys) k = lookupA ys k := by
  rw [lookupA_append, h]; rfl

theorem lookupA_filter_none {α : Type u} {p : String × α → Bool} {k : String}
    (l : List (String × α)) (h : ∀ v, p (k, v) = false) :
    lookupA (l.filter p) k = none := by
  induction l with
  | nil => rfl
  | cons q rest ih =>
    by_cases hq : q.1 = k
    · have : p q = false := by
        have := h q.2
        rwa [show (k, q.2) = q from by cases q; simp_all] at this
      simp [List.filter, this, ih]
    · by_cases hp : p q
      · simp [List.filter, hp, lookupA, hq, ih]
      · simp [List.filter, Bool.eq_false_iff.mpr hp, ih]

theorem lookupA_filter_all {α : Type u} {p : String × α → Bool} {k : String}
    (l : List (String × α)) (h : ∀ v, p (k, v) = true) :
    lookupA (l.filter p) k = lookupA l k := by
  induction l with
  | nil => rfl
  | cons q rest ih =>
    by_cases hq : q.1 = k
    · have : p q = true := by
        have := h q.2
        rwa [show (k, q.2) = q from by cases q; simp_all] at this
      simp [List.filter, this, lookupA, hq]
    · by_cases hp : p q
      · simp [List.filter, hp, lookupA, hq, ih]
      · simp [List.filter, Bool.eq_false_iff.mpr hp, lookupA, hq, ih]

theorem lookupA_updateA {α : Type u} {l : List (String × α)} {k : String}
    (w : α) (h : (lookupA l k).isSome = true) :
    lookupA (updateA l k w) k = some w := by
  induction l with
  | nil => simp [lookupA] at h
  | cons p rest ih =>
    by_cases hp : p.1 = k
    · simp [updateA, hp, lookupA]
    · simp [lookupA, hp] at h
      simp [updateA, hp, lookupA, ih h]

theorem updateA_append_right {α : Type u} {xs : List (String × α)} {k : String}
    (ys : List (String × α)) (v : α) (h : lookupA xs k = none) :
    updateA (xs ++ ys) k v = xs ++ updateA ys k v := by
  induction xs with
  | nil => rfl
  | cons p rest ih =>
    by_cases hp : p.1 = k
    · simp [lookupA, hp] at h
    · simp [lookupA, hp] at h
      simp [updateA, hp, ih h]

theorem mem_updateA {α : Type u} {l : List (String × α)} {k : String} {v : α}
    {e : String × α} (h : e ∈ updateA l k v) : e ∈ l ∨ e = (k, v) := by
  induction l with
  | nil => simp [updateA] at h
  | cons p rest ih =>
    by_cases hp : p.1 = k
    · simp [updateA, hp] at h
      rcases h with h | h
      · right; rw [h]
      · left; exact List.mem_cons_of_mem _ h
    · simp [updateA, hp] at h
      rcases h with h | h
      · left; rw [h]; exact List.mem_cons_self _ _
      · rcases ih h with h' | h'
        · left; exact List.mem_cons_of_mem _ h'
        · right; exact h'

/-! ## C3, C4, C7: the firmware downloader -/

/-- C3 (code bug): an HTTP GET interrupted partway through the body copy DOES
leave a truncated file at the cache target path, because the source writes
with `os.Create` directly at the target (src/main.go:84) instead of writing to
a temporary path and renaming on success; a subsequent invocation finds the
file via `os.Stat` and skips the download, treating the truncated write as an
already-downloaded cache entry.  Concretely: a 10-byte body interrupted after
3 bytes leaves a 3-byte cache file, and the next run returns it as success
without any network request. -/
theorem C3_truncated_download_cached_bug :
    downloadFirmware "4.19.14123" "http://example.com/fw.zip"
        (HttpGetResult.response 200 "0123456789" (some 3)) []
      = ([("kobo-update-4.19.14123.zip", "012")], true,
          Except.error "io.Copy: unexpected EOF")
    ∧ downloadFirmware "4.19.14123" "http://example.com/fw.zip"
        (HttpGetResult.response 200 "0123456789" none)
        [("kobo-update-4.19.14123.zip", "012")]
      = ([("kobo-update-4.19.14123.zip", "012")], false,
          Except.ok "build/src/kobo-update-4.19.14123.zip") :=
  ⟨rfl, rfl⟩

/-- C4 (code bug): the source never inspects `resp.StatusCode` and Go's
`http.Get` does not fail on non-2xx statuses, so a delivered 404 response is
treated as success and its body is written to the cache path.  Concretely: a
404 response with body "Not Found" yields a successful return with the error
page cached as the firmware file, where the claim requires a DownloadError. -/
theorem C4_non_success_status_cached_bug :
    downloadFirmware "4.19.14123" "http://example.com/fw.zip"
        (HttpGetResult.response 404 "Not Found" none) []
      = ([("kobo-update-4.19.14123.zip", "Not Found")], true,
          Except.ok "build/src/kobo-update-4.19.14123.zip") :=
  rfl

/-- C7: the downloader is idempotent.  If the target file derived from the
version string already exists, the downloader performs no network request,
leaves the directory unchanged, and returns the existing path.  A first
successful invocation adds exactly the one target file, and a second
invocation - with any URL and any network behaviour - performs no request and
returns the same path. -/
theorem C7_downloader_idempotent (ver url url2 : String) (net2 : HttpGetResult)
    (dir : List (String × String)) :
    (hasKey dir (firmwareFileName ver) = true →
      downloadFirmware ver url net2 dir = (dir, false, Except.ok (firmwareOutfile ver)))
    ∧ (∀ status body, hasKey dir (firmwareFileName ver) = false →
        downloadFirmware ver url (HttpGetResult.response status body none) dir
          = (dir ++ [(firmwareFileName ver, body)], true, Except.ok (firmwareOutfile ver))
        ∧ downloadFirmware ver url2 net2 (dir ++ [(firmwareFileName ver, body)])
          = (dir ++ [(firmwareFileName ver, body)], false, Except.ok (firmwareOutfile ver))) := by
  constructor
  · intro h
    simp [downloadFirmware, h]
  · intro status body h
    have hnone : lookupA dir (firmwareFileName ver) = none := by
      unfold hasKey at h
      cases hl : lookupA dir (firmwareFileName ver) with
      | none => rfl
      | some v => rw [hl] at h; simp at h
    constructor
    · simp [downloadFirmware, h]
    · have h2 : hasKey (dir ++ [(firmwareFileName ver, body)]) (firmwareFileName ver) = true := by
        unfold hasKey
        rw [lookupA_append_right _ hnone]
        simp [lookupA]
      simp [downloadFirmware, h2]

/-- Witness for C7 at concrete inputs: a directory already holding the cache
file is skipped, and a fresh download followed by a rerun requests exactly
once. -/
theorem C7_downloader_idempotent_witness :
    downloadFirmware "4.19.14123" "http://a/fw.zip"
        (HttpGetResult.transportError "down")
        [("kobo-update-4.19.14123.zip", "abc")]
      = ([("kobo-update-4.19.14123.zip", "abc")], false,
          Except.ok "build/src/kobo-update-4.19.14123.zip")
    ∧ downloadFirmware "4.19.14123" "http://a/fw.zip"
        (HttpGetResult.response 200 "abc" none) []
      = ([("kobo-update-4.19.14123.zip", "abc")], true,
          Except.ok "build/src/kobo-update-4.19.14123.zip")
    ∧ downloadFirmware "4.19.14123" "http://b/fw.zip"
        (HttpGetResult.transportError "down")
        [("kobo-update-4.19.14123.zip", "abc")]
      = ([("kobo-update-4.19.14123.zip", "abc")], false,
          Except.ok "build/src/kobo-update-4.19.14123.zip") := by
  refine ⟨?_, ?_, ?_⟩
  · exact (C7_downloader_idempotent "4.19.14123" "http://a/fw.zip" "http://b/fw.zip"
      (HttpGetResult.transportError "down") [("kobo-update-4.19.14123.zip", "abc")]).1 (by decide)
  · exact (((C7_downloader_idempotent "4.19.14123" "http://a/fw.zip" "http://b/fw.zip"
      (HttpGetResult.transportError "down") []).2 200 "abc" (by decide)).1)
  · exact (((C7_downloader_idempotent "4.19.14123" "http://a/fw.zip" "http://b/fw.zip"
      (HttpGetResult.transportError "down") []).2 200 "abc" (by decide)).2)

/-! ## C1: catalog lookup -/

theorem findVersion_eq_find? (vs : List FirmwareVersion) (ver : String) :
    findVersion vs ver = vs.find? (fun v => v.Version == ver) := by
  induction vs with
  | nil => rfl
  | cons v rest ih =>
    by_cases h : v.Version = ver
    · simp [findVersion, h, List.find?]
    · simp only [findVersion, List.find?]
      rw [if_neg h, ih]
      have : (v.Version == ver) = false := by simp [h]
      rw [this]

theorem findVersion_some {vs : List FirmwareVersion} {ver : String}
    {v : FirmwareVersion} (h : findVersion vs ver = some v) :
    v ∈ vs ∧ v.Version = ver := by
  induction vs with
  | nil => simp [findVersion] at h
  | cons w rest ih =>
    by_cases hw : w.Version = ver
    · simp [findVersion, hw] at h
      subst h
      exact ⟨List.mem_cons_self _ _, hw⟩
    · simp [findVersion, hw] at h
      rcases ih h with ⟨hm, hv⟩
      exact ⟨List.mem_cons_of_mem _ hm, hv⟩

theorem findVersion_none {vs : List FirmwareVersion} {ver : String}
    (h : findVersion vs ver = none) : ∀ v ∈ vs, v.Version ≠ ver := by
  induction vs with
  | nil => intro v hv; simp at hv
  | cons w rest ih =>
    by_cases hw : w.Version = ver
    · simp [findVersion, hw] at h
    · simp [findVersion, hw] at h
      intro v hv
      rcases List.mem_cons.mp hv with h' | h'
      · rw [h']; exact hw
      · exact ih h v h'

theorem lookupFirmware_some {cat : List Firmware} {u ver : String}
    {v : FirmwareVersion} (h : lookupFirmware cat u ver = some v) :
    v.Version = ver ∧ ∃ fw ∈ cat, fw.Id = u ∧ v ∈ fw.Versions := by
  induction cat with
  | nil => simp [lookupFirmware] at h
  | cons fw rest ih =>
    by_cases hid : fw.Id = u
    · simp only [lookupFirmware, if_pos hid] at h
      cases hfv : findVersion fw.Versions ver with
      | some w =>
        rw [hfv] at h
        cases h
        rcases findVersion_some hfv with ⟨hm, hv⟩
        exact ⟨hv, fw, List.mem_cons_self _ _, hid, hm⟩
      | none =>
        rw [hfv] at h
        rcases ih h with ⟨hv, fw', hm', hid', hmem'⟩
        exact ⟨hv, fw', List.mem_cons_of_mem _ hm', hid', hmem'⟩
    · simp only [lookupFirmware, if_neg hid] at h
      rcases ih h with ⟨hv, fw', hm', hid', hmem'⟩
      exact ⟨hv, fw', List.mem_cons_of_mem _ hm', hid', hmem'⟩

theorem lookupFirmware_none {cat : List Firmware} {u ver : String}
    (h : lookupFirmware cat u ver = none) :
    ∀ fw ∈ cat, fw.Id = u → ∀ v ∈ fw.Versions, v.Version ≠ ver := by
  induction cat with
  | nil => intro fw hfw; simp at hfw
  | cons fw0 rest ih =>
    intro fw hfw hid v hv
    by_cases hid0 : fw0.Id = u
    · simp only [lookupFirmware, if_pos hid0] at h
      cases hfv : findVersion fw0.Versions ver with
      | some w => rw [hfv] at h; cases h
      | none =>
        rw [hfv] at h
        rcases List.mem_cons.mp hfw with h' | h'
        · subst h'; exact findVersion_none hfv v hv
        · exact ih h fw h' hid v hv
    · simp only [lookupFirmware, if_neg hid0] at h
      rcases List.mem_cons.mp hfw with h' | h'
      · subst h'; exact absurd hid hid0
      · exact ih h fw h' hid v hv

theorem lookupFirmware_eq_firstMatch (cat : List Firmware) (u ver : String) :
    lookupFirmware cat u ver = firstMatchLookup cat u ver := by
  induction cat with
  | nil => rfl
  | cons fw rest ih =>
    unfold firstMatchLookup at ih ⊢
    by_cases hid : fw.Id = u
    · simp only [lookupFirmware, if_pos hid, List.flatMap_cons, if_pos hid,
        List.find?_append]
      rw [findVersion_eq_find?] at *
      cases hfv : fw.Versions.find? (fun v => v.Version == ver) with
      | some w => simp [Option.or]
      | none => simpa [Option.or] using ih
    · simp only [lookupFirmware, if_neg hid, List.flatMap_cons, if_neg hid,
        List.nil_append]
      exact ih

/-- C1: for every catalog and (uuid, version) pair, the lookup is exactly the
first match of the linear scan (devices in catalog order, a matching device's
versions in order); whenever a matching pair exists the lookup returns a
FirmwareVersion with the requested version string belonging to a device with
the requested identifier; and when no such pair exists the lookup misses and
the run fails fatally with "firmware not found!" performing no build, download
or patch action at all. -/
theorem C1_lookup_correct (cat : List Firmware) (u ver : String) :
    lookupFirmware cat u ver = firstMatchLookup cat u ver
    ∧ ((∃ fw ∈ cat, fw.Id = u ∧ ∃ v ∈ fw.Versions, v.Version = ver) →
        ∃ v, lookupFirmware cat u ver = some v ∧ v.Version = ver
          ∧ ∃ fw ∈ cat, fw.Id = u ∧ v ∈ fw.Versions)
    ∧ (¬(∃ fw ∈ cat, fw.Id = u ∧ ∃ v ∈ fw.Versions, v.Version = ver) →
        lookupFirmware cat u ver = none
        ∧ ∀ env dir, mainRun env cat u ver dir
            = ([], dir, Except.error "firmware not found!")) := by
  refine ⟨lookupFirmware_eq_firstMatch cat u ver, ?_, ?_⟩
  · intro hex
    cases hl : lookupFirmware cat u ver with
    | some v =>
      rcases lookupFirmware_some hl with ⟨hv, hfw⟩
      exact ⟨v, rfl, hv, hfw⟩
    | none =>
      rcases hex with ⟨fw, hfw, hid, v, hv, hver⟩
      exact absurd hver (lookupFirmware_none hl fw hfw hid v hv)
  · intro hnex
    have hl : lookupFirmware cat u ver = none := by
      cases hl : lookupFirmware cat u ver with
      | none => rfl
      | some v =>
        rcases lookupFirmware_some hl with ⟨hv, fw, hfw, hid, hmem⟩
        exact absurd ⟨fw, hfw, hid, v, hmem, hv⟩ hnex
    refine ⟨hl, fun env dir => ?_⟩
    simp [mainRun, hl]

/-- Witness for C1 at a concrete catalog: a present pair is found (with the
matching version from the matching device), and an absent pair makes the whole
run fail with "firmware not found!" and an empty action trace. -/
theorem C1_lookup_correct_witness :
    (∃ v, lookupFirmware
        [⟨"kobo7", "00000000-0000-0000-0000-000000000370", "Libra H2O",
          [⟨"2019-09-16", "http://example.com/fw.zip", "4.19.14123"⟩]⟩]
        "00000000-0000-0000-0000-000000000370" "4.19.14123" = some v
      ∧ v.Version = "4.19.14123"
      ∧ ∃ fw ∈ [⟨"kobo7", "00000000-0000-0000-0000-000000000370", "Libra H2O",
          [⟨"2019-09-16", "http://example.com/fw.zip", "4.19.14123"⟩]⟩],
          Firmware.Id fw = "00000000-0000-0000-0000-000000000370" ∧ v ∈ fw.Versions)
    ∧ ∀ env dir, mainRun env
        [⟨"kobo7", "00000000-0000-0000-0000-000000000370", "Libra H2O",
          [⟨"2019-09-16", "http://example.com/fw.zip", "4.19.14123"⟩]⟩]
        "00000000-0000-0000-0000-000000000370" "4.20.0" dir
        = ([], dir, Except.error "firmware not found!") := by
  constructor
  · exact (C1_lookup_correct
      [⟨"kobo7", "00000000-0000-0000-0000-000000000370", "Libra H2O",
        [⟨"2019-09-16", "http://example.com/fw.zip", "4.19.14123"⟩]⟩]
      "00000000-0000-0000-0000-000000000370" "4.19.14123").2.1
      (by exact ⟨_, List.mem_cons_self _ _, rfl, _, List.mem_cons_self _ _, rfl⟩)
  · exact ((C1_lookup_correct
      [⟨"kobo7", "00000000-0000-0000-0000-000000000370", "Libra H2O",
        [⟨"2019-09-16", "http://example.com/fw.zip", "4.19.14123"⟩]⟩]
      "00000000-0000-0000-0000-000000000370" "4.20.0").2.2 (by decide)).2

/-! ## C2: configuration merger -/

theorem lookupA_mergeMapDoc_right {β : Type u} {m : List (String × β)} {k : String}
    {v : β} (old : List (String × β)) (h : lookupA m k = some v) :
    lookupA (mergeMapDoc old m) k = some v := by
  have hk : hasKey m k = true := by unfold hasKey; rw [h]; rfl
  unfold mergeMapDoc
  rw [lookupA_append_right _ (lookupA_filter_none old (fun v' => by simp [hk])), h]

theorem lookupA_mergeMapDoc_left {β : Type u} {m : List (String × β)} {k : String}
    (old : List (String × β)) (h : hasKey m k = false) :
    lookupA (mergeMapDoc old m) k = lookupA old k := by
  have hm : lookupA m k = none := by
    unfold hasKey at h
    cases hl : lookupA m k with
    | none => rfl
    | some v => rw [hl] at h; simp at h
  unfold mergeMapDoc
  rw [lookupA_append, lookupA_filter_all old (fun v' => by simp [h])]
  cases lookupA old k with
  | none => simp [Option.or, hm]
  | some v => rfl

/-- Counterexample to C2 as stated: an override-toggle mapping present in the
override document does not replace the template's mapping - it is merged into
it group by group, so a template-only group survives.  With the template
holding group "g1" and the override document holding only group "g2", the
merged configuration's override mapping is not the override document's value. -/
theorem C2_override_field_not_replaced_cex :
    (updateKobopatchYaml "1.0"
        { Overrides := some [("g1", [("a", true)])] }
        { Overrides := some [("g2", [("b", false)])] }).Overrides
      ≠ [("g2", [("b", false)])] := by
  decide

/-- C2 (amended): after merging the template document with the override
document, every scalar field present in the override document replaces the
corresponding template field, and the mapping fields are merged key-wise -
entries present in the override replace same-keyed template entries while
template entries whose keys the override does not mention are retained; then
the version field and the input-firmware-path field of the written
configuration always equal the run-supplied version string and the path
src/kobo-update-&lt;version&gt;.zip, regardless of what either source document
contains for those two fields. -/
theorem C2_merge_precedence_amended (ver : String) (t o : KobopatchYamlDoc) :
    (updateKobopatchYaml ver t o).Version = ver
    ∧ (updateKobopatchYaml ver t o).In = "src/kobo-update-" ++ ver ++ ".zip"
    ∧ (∀ x, o.Out = some x → (updateKobopatchYaml ver t o).Out = x)
    ∧ (∀ x, o.Log = some x → (updateKobopatchYaml ver t o).Log = x)
    ∧ (∀ x, o.PatchFormat = some x → (updateKobopatchYaml ver t o).PatchFormat = x)
    ∧ (∀ x, o.Lrelease = some x → (updateKobopatchYaml ver t o).Lrelease = x)
    ∧ (∀ m k v, o.Patches = some m → lookupA m k = some v →
        lookupA (updateKobopatchYaml ver t o).Patches k = some v)
    ∧ (∀ m k, o.Patches = some m → hasKey m k = false →
        lookupA (updateKobopatchYaml ver t o).Patches k
          = lookupA (applyDoc zeroKobopatchYaml t).Patches k)
    ∧ (∀ m k v, o.Overrides = some m → lookupA m k = some v →
        lookupA (updateKobopatchYaml ver t o).Overrides k = some v)
    ∧ (∀ m k, o.Overrides = some m → hasKey m k = false →
        lookupA (updateKobopatchYaml ver t o).Overrides k
          = lookupA (applyDoc zeroKobopatchYaml t).Overrides k)
    ∧ (∀ m k v, o.Translations = some m → lookupA m k = some v →
        lookupA (updateKobopatchYaml ver t o).Translations k = some v)
    ∧ (∀ m k, o.Translations = some m → hasKey m k = false →
        lookupA (updateKobopatchYaml ver t o).Translations k
          = lookupA (applyDoc zeroKobopatchYaml t).Translations k)
    ∧ (∀ m k v, o.Files = some m → lookupA m k = some v →
        lookupA (updateKobopatchYaml ver t o).Files k = some v)
    ∧ (∀ m k, o.Files = some m → hasKey m k = false →
        lookupA (updateKobopatchYaml ver t o).Files k
          = lookupA (applyDoc zeroKobopatchYaml t).Files k) := by
  refine ⟨rfl, rfl, ?_, ?_, ?_, ?_, ?_, ?_, ?_, ?_, ?_, ?_, ?_, ?_⟩
  · intro x h; simp [updateKobopatchYaml, applyDoc, h]
  · intro x h; simp [updateKobopatchYaml, applyDoc, h]
  · intro x h; simp [updateKobopatchYaml, applyDoc, h]
  · intro x h; simp [updateKobopatchYaml, applyDoc, h]
  · intro m k v h hm
    simp only [updateKobopatchYaml, applyDoc, h]
    exact lookupA_mergeMapDoc_right _ hm
  · intro m k h hm
    simp only [updateKobopatchYaml, applyDoc, h]
    exact lookupA_mergeMapDoc_left _ hm
  · intro m k v h hm
    simp only [updateKobopatchYaml, applyDoc, h]
    exact lookupA_mergeMapDoc_right _ hm
  · intro m k h hm
    simp only [updateKobopatchYaml, applyDoc, h]
    exact lookupA_mergeMapDoc_left _ hm
  · intro m k v h hm
    simp only [updateKobopatchYaml, applyDoc, h]
    exact lookupA_mergeMapDoc_right _ hm
  · intro m k h hm
    simp only [updateKobopatchYaml, applyDoc, h]
    exact lookupA_mergeMapDoc_left _ hm
  · intro m k v h hm
    simp only [updateKobopatchYaml, applyDoc, h]
    exact lookupA_mergeMapDoc_right _ hm
  · intro m k h hm
    simp only [updateKobopatchYaml, applyDoc, h]
    exact lookupA_mergeMapDoc_left _ hm

/-- Witness for C2 at concrete documents: the run parameters force version and
input path; every scalar field and every map entry present in the override
document wins, for all four mapping fields; and in each of the four mapping
fields a template entry whose key the override does not mention is retained. -/
theorem C2_merge_precedence_amended_witness :
    (updateKobopatchYaml "4.19.14123"
        ⟨none, none, some "t.zip", some "t.log", some "tpf",
          some [("p1", "t1"), ("p2", "t2")], some [("g1", [("a", true)])],
          some "tlr", some [("fr", "t.fr")], some [("f1", "tf")]⟩
        ⟨none, none, some "o.zip", some "o.log", some "opf",
          some [("p1", "o1")], some [("g2", [("b", false)])],
          some "olr", some [("de", "o.de")], some [("f2", "of")]⟩).Version
      = "4.19.14123"
    ∧ (updateKobopatchYaml "4.19.14123"
        ⟨none, none, some "t.zip", some "t.log", some "tpf",
          some [("p1", "t1"), ("p2", "t2")], some [("g1", [("a", true)])],
          some "tlr", some [("fr", "t.fr")], some [("f1", "tf")]⟩
        ⟨none, none, some "o.zip", some "o.log", some "opf",
          some [("p1", "o1")], some [("g2", [("b", false)])],
          some "olr", some [("de", "o.de")], some [("f2", "of")]⟩).In
      = "src/kobo-update-" ++ "4.19.14123" ++ ".zip"
    ∧ (updateKobopatchYaml "4.19.14123"
        ⟨none, none, some "t.zip", some "t.log", some "tpf",
          some [("p1", "t1"), ("p2", "t2")], some [("g1", [("a", true)])],
          some "tlr", some [("fr", "t.fr")], some [("f1", "tf")]⟩
        ⟨none, none, some "o.zip", some "o.log", some "opf",
          some [("p1", "o1")], some [("g2", [("b", false)])],
          some "olr", some [("de", "o.de")], some [("f2", "of")]⟩).Out = "o.zip"
    ∧ (updateKobopatchYaml "4.19.14123"
        ⟨none, none, some "t.zip", some "t.log", some "tpf",
          some [("p1", "t1"), ("p2", "t2")], some [("g1", [("a", true)])],
          some "tlr", some [("fr", "t.fr")], some [("f1", "tf")]⟩
        ⟨none, none, some "o.zip", some "o.log", some "opf",
          some [("p1", "o1")], some [("g2", [("b", false)])],
          some "olr", some [("de", "o.de")], some [("f2", "of")]⟩).Log = "o.log"
    ∧ (updateKobopatchYaml "4.19.14123"
        ⟨none, none, some "t.zip", some "t.log", some "tpf",
          some [("p1", "t1"), ("p2", "t2")], some [("g1", [("a", true)])],
          some "tlr", some [("fr", "t.fr")], some [("f1", "tf")]⟩
        ⟨none, none, some "o.zip", some "o.log", some "opf",
          some [("p1", "o1")], some [("g2", [("b", false)])],
          some "olr", some [("de", "o.de")], some [("f2", "of")]⟩).PatchFormat = "opf"
    ∧ (updateKobopatchYaml "4.19.14123"
        ⟨none, none, some "t.zip", some "t.log", some "tpf",
          some [("p1", "t1"), ("p2", "t2")], some [("g1", [("a", true)])],
          some "tlr", some [("fr", "t.fr")], some [("f1", "tf")]⟩
        ⟨none, none, some "o.zip", some "o.log", some "opf",
          some [("p1", "o1")], some [("g2", [("b", false)])],
          some "olr", some [("de", "o.de")], some [("f2", "of")]⟩).Lrelease = "olr"
    ∧ lookupA (updateKobopatchYaml "4.19.14123"
        ⟨none, none, some "t.zip", some "t.log", some "tpf",
          some [("p1", "t1"), ("p2", "t2")], some [("g1", [("a", true)])],
          some "tlr", some [("fr", "t.fr")], some [("f1", "tf")]⟩
        ⟨none, none, some "o.zip", some "o.log", some "opf",
          some [("p1", "o1")], some [("g2", [("b", false)])],
          some "olr", some [("de", "o.de")], some [("f2", "of")]⟩).Patches "p1"
      = some "o1"
    ∧ lookupA (updateKobopatchYaml "4.19.14123"
        ⟨none, none, some "t.zip", some "t.log", some "tpf",
          some [("p1", "t1"), ("p2", "t2")], some [("g1", [("a", true)])],
          some "tlr", some [("fr", "t.fr")], some [("f1", "tf")]⟩
        ⟨none, none, some "o.zip", some "o.log", some "opf",
          some [("p1", "o1")], some [("g2", [("b", false)])],
          some "olr", some [("de", "o.de")], some [("f2", "of")]⟩).Patches "p2"
      = lookupA (applyDoc zeroKobopatchYaml
        ⟨none, none, some "t.zip", some "t.log", some "tpf",
          some [("p1", "t1"), ("p2", "t2")], some [("g1", [("a", true)])],
          some "tlr", some [("fr", "t.fr")], some [("f1", "tf")]⟩).Patches "p2"
    ∧ lookupA (updateKobopatchYaml "4.19.14123"
        ⟨none, none, some "t.zip", some "t.log", some "tpf",
          some [("p1", "t1"), ("p2", "t2")], some [("g1", [("a", true)])],
          some "tlr", some [("fr", "t.fr")], some [("f1", "tf")]⟩
        ⟨none, none, some "o.zip", some "o.log", some "opf",
          some [("p1", "o1")], some [("g2", [("b", false)])],
          some "olr", some [("de", "o.de")], some [("f2", "of")]⟩).Overrides "g2"
      = some [("b", false)]
    ∧ lookupA (updateKobopatchYaml "4.19.14123"
        ⟨none, none, some "t.zip", some "t.log", some "tpf",
          some [("p1", "t1"), ("p2", "t2")], some [("g1", [("a", true)])],
          some "tlr", some [("fr", "t.fr")], some [("f1", "tf")]⟩
        ⟨none, none, some "o.zip", some "o.log", some "opf",
          some [("p1", "o1")], some [("g2", [("b", false)])],
          some "olr", some [("de", "o.de")], some [("f2", "of")]⟩).Overrides "g1"
      = lookupA (applyDoc zeroKobopatchYaml
        ⟨none, none, some "t.zip", some "t.log", some "tpf",
          some [("p1", "t1"), ("p2", "t2")], some [("g1", [("a", true)])],
          some "tlr", some [("fr", "t.fr")], some [("f1", "tf")]⟩).Overrides "g1"
    ∧ lookupA (updateKobopatchYaml "4.19.14123"
        ⟨none, none, some "t.zip", some "t.log", some "tpf",
          some [("p1", "t1"), ("p2", "t2")], some [("g1", [("a", true)])],
          some "tlr", some [("fr", "t.fr")], some [("f1", "tf")]⟩
        ⟨none, none, some "o.zip", some "o.log", some "opf",
          some [("p1", "o1")], some [("g2", [("b", false)])],
          some "olr", some [("de", "o.de")], some [("f2", "of")]⟩).Translations "de"
      = some "o.de"
    ∧ lookupA (updateKobopatchYaml "4.19.14123"
        ⟨none, none, some "t.zip", some "t.log", some "tpf",
          some [("p1", "t1"), ("p2", "t2")], some [("g1", [("a", true)])],
          some "tlr", some [("fr", "t.fr")], some [("f1", "tf")]⟩
        ⟨none, none, some "o.zip", some "o.log", some "opf",
          some [("p1", "o1")], some [("g2", [("b", false)])],
          some "olr", some [("de", "o.de")], some [("f2", "of")]⟩).Translations "fr"
      = lookupA (applyDoc zeroKobopatchYaml
        ⟨none, none, some "t.zip", some "t.log", some "tpf",
          some [("p1", "t1"), ("p2", "t2")], some [("g1", [("a", true)])],
          some "tlr", some [("fr", "t.fr")], some [("f1", "tf")]⟩).Translations "fr"
    ∧ lookupA (updateKobopatchYaml "4.19.14123"
        ⟨none, none, some "t.zip", some "t.log", some "tpf",
          some [("p1", "t1"), ("p2", "t2")], some [("g1", [("a", true)])],
          some "tlr", some [("fr", "t.fr")], some [("f1", "tf")]⟩
        ⟨none, none, some "o.zip", some "o.log", some "opf",
          some [("p1", "o1")], some [("g2", [("b", false)])],
          some "olr", some [("de", "o.de")], some [("f2", "of")]⟩).Files "f2"
      = some "of"
    ∧ lookupA (updateKobopatchYaml "4.19.14123"
        ⟨none, none, some "t.zip", some "t.log", some "tpf",
          some [("p1", "t1"), ("p2", "t2")], some [("g1", [("a", true)])],
          some "tlr", some [("fr", "t.fr")], some [("f1", "tf")]⟩
        ⟨none, none, some "o.zip", some "o.log", some "opf",
          some [("p1", "o1")], some [("g2", [("b", false)])],
          some "olr", some [("de", "o.de")], some [("f2", "of")]⟩).Files "f1"
      = lookupA (applyDoc zeroKobopatchYaml
        ⟨none, none, some "t.zip", some "t.log", some "tpf",
          some [("p1", "t1"), ("p2", "t2")], some [("g1", [("a", true)])],
          some "tlr", some [("fr", "t.fr")], some [("f1", "tf")]⟩).Files "f1" := by
  obtain ⟨h1, h2, h3, h4, h5, h6, h7, h8, h9, h10, h11, h12, h13, h14⟩ :=
    C2_merge_precedence_amended "4.19.14123"
      ⟨none, none, some "t.zip", some "t.log", some "tpf",
        some [("p1", "t1"), ("p2", "t2")], some [("g1", [("a", true)])],
        some "tlr", some [("fr", "t.fr")], some [("f1", "tf")]⟩
      ⟨none, none, some "o.zip", some "o.log", some "opf",
        some [("p1", "o1")], some [("g2", [("b", false)])],
        some "olr", some [("de", "o.de")], some [("f2", "of")]⟩
  exact ⟨h1, h2, h3 _ rfl, h4 _ rfl, h5 _ rfl, h6 _ rfl,
    h7 _ "p1" _ rfl rfl, h8 _ "p2" rfl (by decide),
    h9 _ "g2" _ rfl rfl, h10 _ "g1" rfl (by decide),
    h11 _ "de" _ rfl rfl, h12 _ "fr" rfl (by decide),
    h13 _ "f2" _ rfl rfl, h14 _ "f1" rfl (by decide)⟩

/-! ## C5, C6: patch assembler -/

theorem mem_insertByName {β : Type u} {a x : String × β} {l : List (String × β)} :
    a ∈ insertByName x l ↔ a = x ∨ a ∈ l := by
  induction l with
  | nil => simp [insertByName]
  | cons y ys ih =>
    unfold insertByName
    by_cases h : strLe x.1 y.1
    · simp [h, List.mem_cons]
    · simp [h, List.mem_cons, ih]
      tauto

theorem mem_sortByName {β : Type u} {a : String × β} {l : List (String × β)} :
    a ∈ sortByName l ↔ a ∈ l := by
  induction l with
  | nil => simp [sortByName]
  | cons x xs ih =>
    show a ∈ insertByName x (sortByName xs) ↔ _
    rw [mem_insertByName, List.mem_cons, ih]

theorem walkFragments_groups {tree : List (String × List (String × String))}
    {gc : String × String} (h : gc ∈ walkFragments tree) :
    ∃ g ∈ tree, gc.1 = g.1 := by
  unfold walkFragments at h
  rcases List.mem_flatMap.mp h with ⟨g, hg, hmem⟩
  rcases List.mem_map.mp hmem with ⟨f, _hf, he⟩
  exact ⟨g, mem_sortByName.mp hg, by rw [← he]⟩

theorem foldl_appendStep_append (W : List (String × String)) :
    ∀ R acc : List (String × String), (∀ gc ∈ W, lookupA R gc.1 = none) →
      W.foldl appendStep (R ++ acc) = R ++ W.foldl appendStep acc := by
  induction W with
  | nil => intro R acc _; rfl
  | cons gc rest ih =>
    intro R acc h
    have hR : lookupA R gc.1 = none := h gc (List.mem_cons_self _ _)
    have step : appendStep (R ++ acc) gc = R ++ appendStep acc gc := by
      unfold appendStep appendFileToFile
      rw [lookupA_append, hR, Option.none_or]
      cases hacc : lookupA acc gc.1 with
      | some old => exact updateA_append_right acc _ hR
      | none => rw [List.append_assoc]
    show List.foldl appendStep (appendStep (R ++ acc) gc) rest
        = R ++ List.foldl appendStep (appendStep acc gc) rest
    rw [step]
    exact ih R (appendStep acc gc) (fun gc' h' => h gc' (List.mem_cons_of_mem _ h'))

theorem mem_map_fst_appendStep {acc : List (String × String)} {gc : String × String}
    {x : String} (h : x ∈ (appendStep acc gc).map Prod.fst) :
    x ∈ acc.map Prod.fst ∨ x = gc.1 := by
  unfold appendStep appendFileToFile at h
  cases hacc : lookupA acc gc.1 with
  | some old =>
    rw [hacc] at h
    rcases List.mem_map.mp h with ⟨e, he, hx⟩
    rcases mem_updateA he with h' | h'
    · left; rw [← hx]; exact List.mem_map_of_mem Prod.fst h'
    · right; rw [← hx, h']
  | none =>
    rw [hacc] at h
    rcases List.mem_map.mp h with ⟨e, he, hx⟩
    rcases List.mem_append.mp he with h' | h'
    · left; rw [← hx]; exact List.mem_map_of_mem Prod.fst h'
    · right; simp at h'; rw [← hx, h']

theorem mem_foldl_appendStep (W : List (String × String)) :
    ∀ (acc : List (String × String)) (e : String × String),
      e ∈ W.foldl appendStep acc →
      e.1 ∈ acc.map Prod.fst ∨ ∃ gc ∈ W, e.1 = gc.1 := by
  induction W with
  | nil =>
    intro acc e h
    exact Or.inl (List.mem_map_of_mem Prod.fst h)
  | cons gc rest ih =>
    intro acc e h
    rcases ih (appendStep acc gc) e h with h' | h'
    · rcases mem_map_fst_appendStep h' with h'' | h''
      · exact Or.inl h''
      · exact Or.inr ⟨gc, List.mem_cons_self _ _, h''⟩
    · rcases h' with ⟨gc', hgc', he⟩
      exact Or.inr ⟨gc', List.mem_cons_of_mem _ hgc', he⟩

theorem removeYaml_gen_nil {tree : List (String × List (String × String))}
    (H : ∀ gc ∈ walkFragments tree, extOf gc.1 = ".yaml") :
    removeYamlFiles ((walkFragments tree).foldl appendStep []) = [] := by
  apply List.filter_eq_nil_iff.mpr
  intro e he
  rcases mem_foldl_appendStep (walkFragments tree) [] e he with h | ⟨gc, hgc, he1⟩
  · simp at h
  · simp [he1, H gc hgc]

theorem removeYaml_idem (d : List (String × String)) :
    removeYamlFiles (removeYamlFiles d) = removeYamlFiles d := by
  simp [removeYamlFiles, List.filter_filter]

theorem assemble_split (tree : List (String × List (String × String)))
    (d : List (String × String))
    (H : ∀ gc ∈ walkFragments tree, extOf gc.1 = ".yaml") :
    assemble tree d = removeYamlFiles d ++ assemble tree [] := by
  unfold assemble concatFragments
  have h0 : ∀ gc ∈ walkFragments tree, lookupA (removeYamlFiles d) gc.1 = none := by
    intro gc hgc
    exact lookupA_filter_none d (fun v => by simp [H gc hgc])
  have h1 := foldl_appendStep_append (walkFragments tree) (removeYamlFiles d) [] h0
  rw [List.append_nil] at h1
  rw [h1]
  rfl

/-- Counterexample to C5 as stated: the cleanup pass only deletes files whose
extension is `.yaml`, while the merged output file is named after its group
directory.  For a group named `misc` (no extension) the merged file is never
cleared, so a second run appends the fragments again and the output is not
byte-identical. -/
theorem C5_rerun_not_idempotent_cex :
    assemble [("misc", [("a", "x")])] (assemble [("misc", [("a", "x")])] [])
      ≠ assemble [("misc", [("a", "x")])] [] := by
  decide

/-- C5 (amended): the assembler is deterministic - fragments are concatenated
in lexicographic filename order within each group by construction of the walk
- and rerunning it against the same fragment directory tree produces
byte-identical merged output provided every group directory name carries the
`.yaml` extension (as in the real patch repository, where each group is named
after the merged `.yaml` file it produces); the cleanup pass then deletes
exactly the previously generated merged files, so a rerun regenerates the
output source directory to the same state: the non-`.yaml` survivors of the
input directory followed by the freshly generated merged files. -/
theorem C5_assembler_idempotent_amended (tree : List (String × List (String × String)))
    (d : List (String × String)) (H : ∀ g ∈ tree, extOf g.1 = ".yaml") :
    assemble tree (assemble tree d) = assemble tree d
    ∧ assemble tree d = removeYamlFiles d ++ assemble tree [] := by
  have HW : ∀ gc ∈ walkFragments tree, extOf gc.1 = ".yaml" := by
    intro gc hgc
    rcases walkFragments_groups hgc with ⟨g, hg, he⟩
    rw [he]; exact H g hg
  have hsplit := assemble_split tree d HW
  refine ⟨?_, hsplit⟩
  rw [hsplit]
  have h2 := assemble_split tree (removeYamlFiles d ++ assemble tree []) HW
  have hR : removeYamlFiles (removeYamlFiles d ++ assemble tree [])
      = removeYamlFiles d := by
    show List.filter _ _ = _
    rw [List.filter_append]
    have hg : removeYamlFiles (assemble tree []) = [] := by
      have : assemble tree [] = (walkFragments tree).foldl appendStep [] := rfl
      rw [this]
      exact removeYaml_gen_nil HW
    rw [show (assemble tree []).filter (fun p => !(extOf p.1 = ".yaml"))
          = removeYamlFiles (assemble tree []) from rfl, hg, List.append_nil]
    exact removeYaml_idem d
  rw [h2, hR, ← hsplit]

/-- Witness for C5 at a concrete tree whose group carries the `.yaml`
extension: rerunning the assembler over a directory holding a stale merged
file and the downloaded zip reproduces the first run's output exactly. -/
theorem C5_assembler_idempotent_amended_witness :
    (∀ g ∈ [("nickel.yaml", [("02", "y"), ("01", "x")])], extOf (Prod.fst g) = ".yaml")
    ∧ assemble [("nickel.yaml", [("02", "y"), ("01", "x")])]
        (assemble [("nickel.yaml", [("02", "y"), ("01", "x")])]
          [("stale.yaml", "s"), ("kobo-update-4.19.14123.zip", "z")])
      = assemble [("nickel.yaml", [("02", "y"), ("01", "x")])]
          [("stale.yaml", "s"), ("kobo-update-4.19.14123.zip", "z")] :=
  ⟨by decide,
    (C5_assembler_idempotent_amended [("nickel.yaml", [("02", "y"), ("01", "x")])]
      [("stale.yaml", "s"), ("kobo-update-4.19.14123.zip", "z")] (by decide)).1⟩

/-- C6: the append step adds the fragment's full contents followed by exactly
one newline to the merged file named after the fragment's group (creating it
when absent, appending to the existing contents otherwise); and the spec's
scenario holds: a version directory with groups `display` (3 fragments) and
`misc` (1 fragment), assembled into an empty output directory, yields exactly
the two merged files, `display` holding the three fragments' contents in
lexicographic filename order each followed by one newline, `misc` holding its
single fragment's contents followed by one newline. -/
theorem C6_append_newline_and_scenario :
    (∀ (dir : List (String × String)) (c b : String),
        (lookupA dir b = none →
          lookupA (appendFileToFile dir c b) b = some (c ++ "\n"))
        ∧ (∀ s, lookupA dir b = some s →
          lookupA (appendFileToFile dir c b) b = some (s ++ c ++ "\n")))
    ∧ (∀ c1 c2 c3 m : String,
        assemble [("display", [("01", c1), ("02", c2), ("03", c3)]),
                  ("misc", [("01", m)])] []
          = [("display", c1 ++ "\n" ++ c2 ++ "\n" ++ c3 ++ "\n"),
             ("misc", m ++ "\n")]) := by
  constructor
  · intro dir c b
    constructor
    · intro h
      unfold appendFileToFile
      rw [h, lookupA_append_right _ h]
      simp [lookupA]
    · intro s h
      unfold appendFileToFile
      rw [h]
      exact lookupA_updateA _ (by rw [h]; rfl)
  · intro c1 c2 c3 m
    rfl

/-- Witness for C6 at concrete inputs: creation of a fresh merged file, append
to an existing merged file, and the two-group scenario instance. -/
theorem C6_append_newline_and_scenario_witness :
    lookupA (appendFileToFile [] "patchA" "display") "display"
        = some ("patchA" ++ "\n")
    ∧ lookupA (appendFileToFile [("display", "x\n")] "patchB" "display") "display"
        = some ("x\n" ++ "patchB" ++ "\n")
    ∧ assemble [("display", [("01", "a"), ("02", "b"), ("03", "c")]),
                ("misc", [("01", "m")])] []
        = [("display", "a" ++ "\n" ++ "b" ++ "\n" ++ "c" ++ "\n"),
           ("misc", "m" ++ "\n")] := by
  refine ⟨?_, ?_, ?_⟩
  · exact (C6_append_newline_and_scenario.1 [] "patchA" "display").1 rfl
  · exact (C6_append_newline_and_scenario.1 [("display", "x\n")] "patchB" "display").2
      "x\n" rfl
  · exact C6_append_newline_and_scenario.2 "a" "b" "c" "m"

/-! ## C8, C9, C10: builder and whole-run pipeline -/

theorem buildMapFor_unsupported {p : String} (h : p ∉ supportedPlatforms) :
    buildMapFor p = ([], []) := by
  simp only [supportedPlatforms, List.mem_cons, List.not_mem_nil, or_false,
    not_or] at h
  unfold buildMapFor
  rw [if_neg h.1, if_neg h.2.1, if_neg h.2.2.1, if_neg h.2.2.2]

theorem buildKobopatch_unsupported (p : String) (f : String → Option String)
    (h : p ∉ supportedPlatforms) : buildKobopatch p f = ([], Except.ok []) := by
  unfold buildKobopatch
  rw [buildMapFor_unsupported h]
  rfl

theorem runCmd_not_in_runBuilds (m : List (String × String))
    (f : String → Option String) (p : String) :
    Event.runCmd p ∉ (runBuilds m f).1 := by
  induction m with
  | nil => simp [runBuilds]
  | cons po rest ih =>
    obtain ⟨pkg, out⟩ := po
    unfold runBuilds
    cases hf : f pkg with
    | some e => simp
    | none => simp [ih]

theorem runCmd_not_in_buildKobopatch (q : String) (f : String → Option String)
    (p : String) : Event.runCmd p ∉ (buildKobopatch q f).1 := by
  unfold buildKobopatch
  dsimp only
  split
  · dsimp only; exact runCmd_not_in_runBuilds _ _ _
  · dsimp only; exact runCmd_not_in_runBuilds _ _ _

theorem runCmd_not_in_dlev (b : Bool) (u p : String) :
    Event.runCmd p ∉ (if b then [Event.httpGet u] else []) := by
  cases b <;> simp

/-- Counterexample to C8 as stated: the Builder executes at the start of
`patchFirmware`, before the Configuration Merger, so a run that later hits a
configuration-merge failure has already performed Builder subprocess
invocations.  Concretely: on linux/amd64 with all builds succeeding, the
download succeeding and the configuration read failing, the trace contains a
`go build` invocation and the run ends in the merge error. -/
theorem C8_builder_runs_before_merge_failure_cex :
    Event.buildCmd "kobopatch" "kobopatch-linux-64bit"
      ∈ (patchFirmware
          ⟨"linux/amd64", fun _ => none, HttpGetResult.response 200 "fw" none,
            none, none, [], some "failed to read: overrides.yaml", fun _ => none⟩
          "4.19.14123" ⟨"2019-09-16", "http://example.com/fw.zip", "4.19.14123"⟩ []).1
    ∧ (patchFirmware
          ⟨"linux/amd64", fun _ => none, HttpGetResult.response 200 "fw" none,
            none, none, [], some "failed to read: overrides.yaml", fun _ => none⟩
          "4.19.14123" ⟨"2019-09-16", "http://example.com/fw.zip", "4.19.14123"⟩ []).2.2
      = Except.error "failed to read: overrides.yaml" := by
  constructor
  · decide
  · rfl

/-- C8 (amended): every configuration-merge failure aborts the run before the
Runner executes - no Runner subprocess invocation appears in the trace of such
a run and the run ends in an error; the Builder, however, runs at the start of
the pipeline, before the merger, so Builder invocations may already have
occurred. -/
theorem C8_merge_failure_aborts_before_runner (env : Env) (ver : String)
    (v : FirmwareVersion) (dir : List (String × String)) (e : String)
    (h : env.configErr = some e) :
    (∀ p, Event.runCmd p ∉ (patchFirmware env ver v dir).1)
    ∧ ∃ msg, (patchFirmware env ver v dir).2.2 = Except.error msg := by
  have hnb : ∀ p, Event.runCmd p ∉ (buildKobopatch env.platform env.goBuildErr).1 :=
    runCmd_not_in_buildKobopatch _ _
  unfold patchFirmware
  cases hB : buildKobopatch env.platform env.goBuildErr with
  | mk bev br =>
  rw [hB] at hnb
  cases br with
  | error e' =>
    exact ⟨fun p => hnb p, e', rfl⟩
  | ok bm =>
    dsimp only
    cases hdl : (downloadFirmware ver v.Download env.net dir).2.2 with
    | error e' =>
      dsimp only
      refine ⟨fun p => ?_, e', rfl⟩
      simp only [List.mem_append]
      rintro (hp | hp)
      · exact hnb p hp
      · exact runCmd_not_in_dlev _ _ p hp
    | ok s =>
      dsimp only
      cases hc : env.walkCleanErr with
      | some e' =>
        refine ⟨fun p => ?_, e', rfl⟩
        simp only [List.mem_append]
        rintro (hp | hp)
        · exact hnb p hp
        · exact runCmd_not_in_dlev _ _ p hp
      | none =>
        cases hcc : env.walkConcatErr with
        | some e' =>
          refine ⟨fun p => ?_, e', rfl⟩
          simp only [List.mem_append]
          rintro (hp | hp)
          · exact hnb p hp
          · exact runCmd_not_in_dlev _ _ p hp
        | none =>
          rw [h]
          refine ⟨fun p => ?_, e, rfl⟩
          simp only [List.mem_append]
          rintro (hp | hp)
          · exact hnb p hp
          · exact runCmd_not_in_dlev _ _ p hp

/-- Witness for C8 (amended) at a concrete run whose configuration merge
fails: the Runner invocation is absent from the trace and the run errors. -/
theorem C8_merge_failure_aborts_before_runner_witness :
    Event.runCmd "./bin/kobopatch-linux-64bit"
      ∉ (patchFirmware
          ⟨"linux/amd64", fun _ => none, HttpGetResult.response 200 "fw" none,
            none, none, [], some "failed to parse: overrides.yaml", fun _ => none⟩
          "4.19.14123" ⟨"2019-09-16", "http://example.com/fw.zip", "4.19.14123"⟩ []).1
    ∧ ∃ msg, (patchFirmware
          ⟨"linux/amd64", fun _ => none, HttpGetResult.response 200 "fw" none,
            none, none, [], some "failed to parse: overrides.yaml", fun _ => none⟩
          "4.19.14123" ⟨"2019-09-16", "http://example.com/fw.zip", "4.19.14123"⟩ []).2.2
        = Except.error msg :=
  ⟨(C8_merge_failure_aborts_before_runner
      ⟨"linux/amd64", fun _ => none, HttpGetResult.response 200 "fw" none,
        none, none, [], some "failed to parse: overrides.yaml", fun _ => none⟩
      "4.19.14123" ⟨"2019-09-16", "http://example.com/fw.zip", "4.19.14123"⟩ []
      "failed to parse: overrides.yaml" rfl).1 _,
    (C8_merge_failure_aborts_before_runner
      ⟨"linux/amd64", fun _ => none, HttpGetResult.response 200 "fw" none,
        none, none, [], some "failed to parse: overrides.yaml", fun _ => none⟩
      "4.19.14123" ⟨"2019-09-16", "http://example.com/fw.zip", "4.19.14123"⟩ []
      "failed to parse: overrides.yaml" rfl).2⟩

/-- C9: for every host platform outside the four supported platform keys, the
Builder performs no build invocations and returns success with an empty build
map - it silently builds nothing rather than failing. -/
theorem C9_unsupported_platform_builds_nothing (p : String)
    (f : String → Option String) (h : p ∉ supportedPlatforms) :
    buildKobopatch p f = ([], Except.ok []) :=
  buildKobopatch_unsupported p f h

/-- Witness for C9 on a concrete unsupported platform, with a toolchain oracle
that would fail every build: no build is attempted and the Builder succeeds. -/
theorem C9_unsupported_platform_builds_nothing_witness :
    "freebsd/arm64" ∉ supportedPlatforms
    ∧ buildKobopatch "freebsd/arm64" (fun pkg => some ("build failed: " ++ pkg))
      = ([], Except.ok []) :=
  ⟨by decide,
    C9_unsupported_platform_builds_nothing "freebsd/arm64"
      (fun pkg => some ("build failed: " ++ pkg)) (by decide)⟩

/-- C10: on an unsupported host platform the Builder succeeds with an empty
build map and no build invocations, yet the whole run still fails before
producing patched firmware: the run never returns success, and whenever the
download, cleanup, concatenation and configuration-merge stages all succeed,
the Runner is invoked at the path "./bin/" - built from the absent "kobopatch"
entry of the empty build map, whose Go map lookup yields the empty string - a
directory path whose execution always fails, terminating the run with a fatal
error at the Runner stage. -/
theorem C10_unsupported_platform_run_fails (env : Env) (ver : String)
    (v : FirmwareVersion) (dir : List (String × String))
    (h : env.platform ∉ supportedPlatforms) :
    buildKobopatch env.platform env.goBuildErr = ([], Except.ok [])
    ∧ (patchFirmware env ver v dir).2.2 ≠ Except.ok ()
    ∧ ((downloadFirmware ver v.Download env.net dir).2.2
          = Except.ok (firmwareOutfile ver) →
        env.walkCleanErr = none → env.walkConcatErr = none → env.configErr = none →
        Event.runCmd "./bin/" ∈ (patchFirmware env ver v dir).1
        ∧ (patchFirmware env ver v dir).2.2
            = Except.error "fork/exec ./bin/: no such file or directory") := by
  have hb := buildKobopatch_unsupported env.platform env.goBuildErr h
  have hre : runExec env.execErr ("./bin/" ++ lookupBuildMap [] "kobopatch")
      = some "fork/exec ./bin/: no such file or directory" := rfl
  refine ⟨hb, ?_, ?_⟩
  · unfold patchFirmware
    rw [hb]
    dsimp only
    cases hdl : (downloadFirmware ver v.Download env.net dir).2.2 with
    | error e' => simp
    | ok s =>
      dsimp only
      cases hc : env.walkCleanErr with
      | some e' => simp
      | none =>
        cases hcc : env.walkConcatErr with
        | some e' => simp
        | none =>
          cases hcfg : env.configErr with
          | some e' => simp
          | none =>
            rw [hre]
            simp
  · intro hdl hc hcc hcfg
    unfold patchFirmware
    rw [hb]
    dsimp only
    rw [hdl]
    dsimp only
    rw [hc, hcc, hcfg, hre]
    simp
    rfl

/-- Witness for C10 on a concrete unsupported platform with all other stages
succeeding: the Builder succeeds doing nothing, the run does not succeed, and
it fails at the Runner stage invoking the directory path "./bin/". -/
theorem C10_unsupported_platform_run_fails_witness :
    buildKobopatch "plan9/amd64" (fun _ => none) = ([], Except.ok [])
    ∧ (patchFirmware
        ⟨"plan9/amd64", fun _ => none, HttpGetResult.response 200 "fw" none,
          none, none, [], none, fun _ => none⟩
        "4.19.14123" ⟨"2019-09-16", "http://example.com/fw.zip", "4.19.14123"⟩ []).2.2
      ≠ Except.ok ()
    ∧ (Event.runCmd "./bin/"
        ∈ (patchFirmware
            ⟨"plan9/amd64", fun _ => none, HttpGetResult.response 200 "fw" none,
              none, none, [], none, fun _ => none⟩
            "4.19.14123" ⟨"2019-09-16", "http://example.com/fw.zip", "4.19.14123"⟩ []).1
      ∧ (patchFirmware
            ⟨"plan9/amd64", fun _ => none, HttpGetResult.response 200 "fw" none,
              none, none, [], none, fun _ => none⟩
            "4.19.14123" ⟨"2019-09-16", "http://example.com/fw.zip", "4.19.14123"⟩ []).2.2
          = Except.error "fork/exec ./bin/: no such file or directory") := by
  refine ⟨?_, ?_, ?_⟩
  · exact (C10_unsupported_platform_run_fails
      ⟨"plan9/amd64", fun _ => none, HttpGetResult.response 200 "fw" none,
        none, none, [], none, fun _ => none⟩
      "4.19.14123" ⟨"2019-09-16", "http://example.com/fw.zip", "4.19.14123"⟩ []
      (by decide)).1
  · exact (C10_unsupported_platform_run_fails
      ⟨"plan9/amd64", fun _ => none, HttpGetResult.response 200 "fw" none,
        none, none, [], none, fun _ => none⟩
      "4.19.14123" ⟨"2019-09-16", "http://example.com/fw.zip", "4.19.14123"⟩ []
      (by decide)).2.1
  · exact (C10_unsupported_platform_run_fails
      ⟨"plan9/amd64", fun _ => none, HttpGetResult.response 200 "fw" none,
        none, none, [], none, fun _ => none⟩
      "4.19.14123" ⟨"2019-09-16", "http://example.com/fw.zip", "4.19.14123"⟩ []
      (by decide)).2.2 rfl rfl rfl rfl

end Kobo
